import Mathlib

/-!
Formal model of the iam-go client library.

The development shallowly embeds the parts of the library relevant to
token-claim mapping (jwks/jwks.go), JWKS key fetching and resolution
(jwks/jwks.go), authorization decision caching (authz package) and OAuth2
token caching (oauth2/exchanger.go).  Machine state is passed explicitly,
network effects are parameters describing the outcome of the one network
interaction a call can make, and wall-clock time is an explicit `Int`
argument (seconds).  Fallible operations return `Except String`.
-/

namespace IamGo

/-- A JSON value as decoded into Go's `any` by `encoding/json` (nested
objects and fractional numbers are not needed by the payloads modelled
here; timestamps are integer seconds). -/
inductive JsonValue where
  | str (s : String)
  | num (n : Int)
  | arr (xs : List JsonValue)
  | boolean (b : Bool)
  | nullv

/-- Association-list lookup, the model of Go map indexing `m[k]` (JSON
decoding produces maps, so keys are unique in well-formed payloads). -/
def lookupField : List (String × JsonValue) → String → Option JsonValue
  | [], _ => none
  | (k1, v1) :: rest, k => if k1 = k then some v1 else lookupField rest k

/-- `iam.Claims`: the structured result of a successful verification
(type `Claims` in the root package; timestamps kept as unix seconds). -/
structure IAMClaims where
  Subject : String := ""
  TenantID : String := ""
  Roles : List String := []
  Email : String := ""
  ExpiresAtSec : Int := 0
  IssuedAtSec : Int := 0
  Issuer : String := ""
  Extra : List (String × JsonValue) := []

/-- The loop body of the `roles` extraction in `mapToIAMClaims`: keep the
string entries of the list, drop everything else. -/
def collectStrings : List JsonValue → List String
  | [] => []
  | .str s :: rest => s :: collectStrings rest
  | _ :: rest => collectStrings rest

/-- The `standard` set in `mapToIAMClaims` (a Go `map[string]bool`):
keys excluded from the `Extra` bucket. -/
def isStandardKey (k : String) : Bool :=
  k == "sub" || k == "tenant_id" || k == "email" || k == "iss" ||
  k == "exp" || k == "iat" || k == "roles" ||
  k == "aud" || k == "nbf" || k == "jti"

/-- `mapToIAMClaims` (jwks/jwks.go): converts a decoded payload map into
`iam.Claims`.  Each standard field is taken only when the type assertion
succeeds; every key outside the `standard` set is copied into `Extra`. -/
def mapToIAMClaims (m : List (String × JsonValue)) : IAMClaims :=
  { Subject := match lookupField m "sub" with | some (.str s) => s | _ => ""
    TenantID := match lookupField m "tenant_id" with | some (.str s) => s | _ => ""
    Email := match lookupField m "email" with | some (.str s) => s | _ => ""
    Issuer := match lookupField m "iss" with | some (.str s) => s | _ => ""
    ExpiresAtSec := match lookupField m "exp" with | some (.num n) => n | _ => 0
    IssuedAtSec := match lookupField m "iat" with | some (.num n) => n | _ => 0
    Roles := match lookupField m "roles" with | some (.arr xs) => collectStrings xs | _ => []
    Extra := m.filter (fun p => !(isStandardKey p.1)) }

/-- A payload field `(k, v)` is recoverable from a `Claims` value when it
is reflected in the typed field for its key or retrievable from `Extra`. -/
def fieldRecovered (c : IAMClaims) (k : String) (v : JsonValue) : Prop :=
  (k = "sub" ∧ v = .str c.Subject) ∨
  (k = "tenant_id" ∧ v = .str c.TenantID) ∨
  (k = "email" ∧ v = .str c.Email) ∨
  (k = "iss" ∧ v = .str c.Issuer) ∨
  (k = "exp" ∧ v = .num c.ExpiresAtSec) ∨
  (k = "iat" ∧ v = .num c.IssuedAtSec) ∨
  (k = "roles" ∧ v = .arr (c.Roles.map JsonValue.str)) ∨
  lookupField c.Extra k = some v

/-- Whether every entry of a decoded `roles` list is a string. -/
def allStrings : List JsonValue → Bool
  | [] => true
  | .str _ :: rest => allStrings rest
  | _ :: _ => false

/-- The value shape under which the typed extraction for key `k` in
`mapToIAMClaims` succeeds (`true` for non-typed keys). -/
def shapeOK (k : String) (v : JsonValue) : Bool :=
  if k = "sub" ∨ k = "tenant_id" ∨ k = "email" ∨ k = "iss" then
    match v with | .str _ => true | _ => false
  else if k = "exp" ∨ k = "iat" then
    match v with | .num _ => true | _ => false
  else if k = "roles" then
    match v with | .arr xs => allStrings xs | _ => false
  else true

/-! ## Authorization decision cache (package authz) -/

namespace Authz

/-- A decision-cache entry (`cacheEntry` in authz): the cached boolean and
the store time (`time.Now()` at store, in seconds). -/
structure CacheEntry where
  allowed : Bool
  timestamp : Int
  deriving DecidableEq, Repr

/-- `cacheKey`: the cache key string `userID + ":" + tenantID + ":" + permission`. -/
def cacheKey (userID tenantID permission : String) : String :=
  userID ++ ":" ++ tenantID ++ ":" ++ permission

/-- The `sync.Map` decision cache, as a total map from key to entry. -/
def DecisionCache : Type := String → Option CacheEntry

/-- The tail of `checkCached` after the cache phase: query the backend,
propagate its error wrapped, or store the fresh boolean under `key` with
the current time.  The `Nat` is the number of backend calls made (1). -/
def queryBackend (cache : DecisionCache) (backend : Except String Bool)
    (now : Int) (key : String) : Except String Bool × DecisionCache × Nat :=
  match backend with
  | .error e => (.error ("iam/authz: " ++ e), cache, 1)
  | .ok allowed =>
      (.ok allowed,
       fun k => if k = key then some ⟨allowed, now⟩ else cache k, 1)

/-- `Authorizer.checkCached`: serve a non-expired entry from the cache with
no backend call; delete an expired entry, then (also on a pure miss) query
the backend.  `backend` is the outcome `CheckPermission` would produce on
this call; the `Nat` counts backend calls made during the invocation. -/
def checkCached (ttl : Int) (cache : DecisionCache) (backend : Except String Bool)
    (now : Int) (userID tenantID permission : String) :
    Except String Bool × DecisionCache × Nat :=
  let key := cacheKey userID tenantID permission
  match cache key with
  | some entry =>
      if now - entry.timestamp < ttl then
        (.ok entry.allowed, cache, 0)
      else
        queryBackend (fun k => if k = key then none else cache k) backend now key
  | none => queryBackend cache backend now key

/-- The request context, as far as the authorizer reads it:
`UserIDFromContext` / `TenantIDFromContext` return `""` when absent. -/
structure Ctx where
  userID : String
  tenantID : String
  deriving DecidableEq, Repr

/-- `Authorizer.Check`: reject when the context lacks a user id or tenant
id (no backend call, cache untouched), otherwise run `checkCached`. -/
def Check (ttl : Int) (cache : DecisionCache) (backend : Except String Bool)
    (now : Int) (ctx : Ctx) (permission : String) :
    Except String Bool × DecisionCache × Nat :=
  if ctx.userID = "" ∨ ctx.tenantID = "" then
    (.error "iam/authz: user_id and tenant_id required in context", cache, 0)
  else
    checkCached ttl cache backend now ctx.userID ctx.tenantID permission

/-- `Authorizer.CheckResource`: combine resource and action into the
permission string `resource:action` and route through `Check`. -/
def CheckResource (ttl : Int) (cache : DecisionCache) (backend : Except String Bool)
    (now : Int) (ctx : Ctx) (resource action : String) :
    Except String Bool × DecisionCache × Nat :=
  Check ttl cache backend now ctx (resource ++ ":" ++ action)

/-- `Authorizer.GetPermissions`: reject on a missing user id or tenant id,
otherwise pass the backend's `GetPermissions` result through uncached.
The `Nat` counts backend calls made. -/
def GetPermissions (backend : Except String (List String)) (ctx : Ctx) :
    Except String (List String) × Nat :=
  if ctx.userID = "" ∨ ctx.tenantID = "" then
    (.error "iam/authz: user_id and tenant_id required in context", 0)
  else
    (backend, 1)

/-- Whether the cache holds a non-expired entry under `key` at time `now`
(the condition under which `checkCached` answers without a backend call). -/
def isFreshHit (ttl : Int) (cache : DecisionCache) (now : Int) (key : String) : Bool :=
  match cache key with
  | some entry => decide (now - entry.timestamp < ttl)
  | none => false

end Authz

/-! ## OAuth2 client-credentials token cache (package oauth2) -/

namespace OAuth2

/-- `iam.OAuth2Token` (timestamps in unix seconds). -/
structure OAuth2Token where
  accessToken : String
  tokenType : String
  expiresIn : Int
  expiresAt : Int
  scope : String
  deriving DecidableEq, Repr

/-- The mutable part of `oauth2.Exchanger` relevant to token caching:
the refresh buffer and the single cached token. -/
structure ExchangerSt where
  refreshBuffer : Int
  token : Option OAuth2Token
  deriving DecidableEq, Repr

/-- The slow path of `GetCachedToken`: run the (coalesced) credential
exchange; on failure wrap and propagate the error leaving the state as it
was, on success replace the cached token wholesale. -/
def slowPath (st : ExchangerSt) (exchange : Except String OAuth2Token) :
    Except String String × ExchangerSt :=
  match exchange with
  | .error e => (.error ("oauth2 token exchange failed: " ++ e), st)
  | .ok tok => (.ok tok.accessToken, { st with token := some tok })

/-- `Exchanger.GetCachedToken`: return the cached access token while `now`
is before `expiresAt - refreshBuffer`; otherwise take the slow path.
`exchange` is the outcome `ExchangeToken` would produce if invoked. -/
def GetCachedToken (st : ExchangerSt) (now : Int)
    (exchange : Except String OAuth2Token) :
    Except String String × ExchangerSt :=
  match st.token with
  | some tk =>
      if now < tk.expiresAt - st.refreshBuffer then (.ok tk.accessToken, st)
      else slowPath st exchange
  | none => slowPath st exchange

/-- Whether `GetCachedToken` at time `now` would take the slow path
(no cached token, or the cached token is inside the refresh buffer). -/
def needsExchange (st : ExchangerSt) (now : Int) : Bool :=
  match st.token with
  | some tk => !(decide (now < tk.expiresAt - st.refreshBuffer))
  | none => true

end OAuth2

/-! ## JWKS key fetching and token verification (package jwks) -/

namespace Jwks

/-- The value of one character of the base64url alphabet
(`base64.RawURLEncoding`), `none` for characters outside the alphabet. -/
def b64urlVal (c : Char) : Option Nat :=
  if 'A' ≤ c ∧ c ≤ 'Z' then some (c.toNat - 65)
  else if 'a' ≤ c ∧ c ≤ 'z' then some (c.toNat - 71)
  else if '0' ≤ c ∧ c ≤ '9' then some (c.toNat + 4)
  else if c = '-' then some 62
  else if c = '_' then some 63
  else none

/-- Reassemble sextet values into bytes, groupwise.  A trailing group of
one sextet is invalid; groups of two or three yield one or two bytes with
the leftover low bits discarded (the encoding is not strict). -/
def b64Regroup : List Nat → Except String (List Nat)
  | [] => .ok []
  | [_] => .error "illegal base64 data"
  | [a, b] => .ok [a * 4 + b / 16]
  | [a, b, c] => .ok [a * 4 + b / 16, (b % 16) * 16 + c / 4]
  | a :: b :: c :: d :: rest =>
      match b64Regroup rest with
      | .error e => .error e
      | .ok tail =>
          .ok ([a * 4 + b / 16, (b % 16) * 16 + c / 4, (c % 4) * 64 + d] ++ tail)

/-- `base64.RawURLEncoding.DecodeString`: decode an unpadded base64url
string to bytes, failing on characters outside the alphabet or on a
length of 1 mod 4. -/
def rawURLDecode (s : String) : Except String (List Nat) :=
  match s.data.mapM b64urlVal with
  | none => .error "illegal base64 data"
  | some vals => b64Regroup vals

/-- `big.Int.SetBytes`: interpret a byte list as a big-endian unsigned
integer. -/
def bytesToNat (bs : List Nat) : Nat :=
  bs.foldl (fun acc b => acc * 256 + b) 0

/-- `big.Int.Int64` followed by `int(...)` on a 64-bit platform: the low
64 bits of the value, read as a signed two's-complement number. -/
def int64ofNat (n : Nat) : Int :=
  let m : Nat := n % 2 ^ 64
  if m < 2 ^ 63 then (m : Int) else (m : Int) - 2 ^ 64

/-- An RSA public key (`rsa.PublicKey`): modulus and exponent. -/
structure RSAPub where
  n : Nat
  e : Int
  deriving DecidableEq, Repr

/-- One JWKS document entry (`jwkKey`). -/
structure JwkKey where
  kty : String
  use : String
  kid : String
  alg : String
  n : String
  e : String
  deriving DecidableEq, Repr

/-- `jwkKey.rsaPublicKey`: decode the base64url modulus and exponent into
an `rsa.PublicKey`. -/
def rsaPublicKey (k : JwkKey) : Except String RSAPub :=
  match rawURLDecode k.n with
  | .error err => .error ("decode modulus: " ++ err)
  | .ok nBytes =>
      match rawURLDecode k.e with
      | .error err => .error ("decode exponent: " ++ err)
      | .ok eBytes => .ok ⟨bytesToNat nBytes, int64ofNat (bytesToNat eBytes)⟩

/-- The mutable part of `jwks.Verifier`: the refresh interval, the cached
kid-to-key snapshot (an association list standing for the Go map, lookup
by first match, insertion replacing an existing kid) and the last fetch
time. -/
structure VerifierSt where
  refreshInterval : Int
  keys : List (String × RSAPub)
  lastFetch : Int
  deriving DecidableEq, Repr

/-- Go map lookup `v.keys[kid]`. -/
def lookupKey : List (String × RSAPub) → String → Option RSAPub
  | [], _ => none
  | (kid1, k1) :: rest, kid => if kid1 = kid then some k1 else lookupKey rest kid

/-- Go map assignment `keys[kid] = pub` (replace an existing kid, else
append). -/
def insertKey : List (String × RSAPub) → String → RSAPub → List (String × RSAPub)
  | [], kid, k => [(kid, k)]
  | (kid1, k1) :: rest, kid, k =>
      if kid1 = kid then (kid, k) :: rest else (kid1, k1) :: insertKey rest kid k

/-- The key-building loop of `Verifier.refresh`: keep only entries with
`kty == "RSA"` and `use` empty or `"sig"`, skip (not fail on) entries
whose key material does not decode. -/
def buildKeys : List JwkKey → List (String × RSAPub) → List (String × RSAPub)
  | [], acc => acc
  | jwk :: rest, acc =>
      if jwk.kty ≠ "RSA" ∨ (jwk.use ≠ "" ∧ jwk.use ≠ "sig") then
        buildKeys rest acc
      else
        match rsaPublicKey jwk with
        | .error _ => buildKeys rest acc
        | .ok pub => buildKeys rest (insertKey acc jwk.kid pub)

/-- The outcome of the one JWKS endpoint fetch a `refresh` performs:
a transport-level failure, or an HTTP response with a status code and the
JSON-decoded key list (or a decode failure). -/
inductive FetchOutcome where
  | transportError (e : String)
  | response (status : Nat) (body : Except String (List JwkKey))
  deriving Repr

/-- `Verifier.refresh`: fetch the JWKS document, fail on transport error,
non-200 status, an undecodable body, or a body yielding zero usable keys;
only on success replace the snapshot and the fetch timestamp. -/
def refresh (st : VerifierSt) (now : Int) (f : FetchOutcome) :
    Except String Unit × VerifierSt :=
  match f with
  | .transportError e => (.error ("iam/jwks: fetch: " ++ e), st)
  | .response status body =>
      if status ≠ 200 then
        (.error ("iam/jwks: fetch returned status " ++ toString status), st)
      else
        match body with
        | .error e => (.error ("iam/jwks: decode: " ++ e), st)
        | .ok jwks =>
            let keys := buildKeys jwks []
            if keys.isEmpty then
              (.error "iam/jwks: no valid RSA signing keys found", st)
            else
              (.ok (), { st with keys := keys, lastFetch := now })

/-- `Verifier.getKey`: answer from the snapshot when the kid is present
and the snapshot is fresh; otherwise refresh inline — on refresh failure
fall back to the stale key if one was found, on refresh success resolve
against the new snapshot, with a first-available-key fallback when the
kid is empty.  The `Nat` counts refresh (fetch) attempts made. -/
def getKey (st : VerifierSt) (now : Int) (f : FetchOutcome) (kid : String) :
    Except String RSAPub × VerifierSt × Nat :=
  let key? := lookupKey st.keys kid
  let stale := decide (st.refreshInterval < now - st.lastFetch)
  match key?, stale with
  | some k, false => (.ok k, st, 0)
  | _, _ =>
      match refresh st now f with
      | (.error e, st1) =>
          match key? with
          | some k => (.ok k, st1, 1)
          | none => (.error e, st1, 1)
      | (.ok _, st1) =>
          match lookupKey st1.keys kid with
          | some k => (.ok k, st1, 1)
          | none =>
              if kid = "" then
                match st1.keys with
                | (_, k) :: _ => (.ok k, st1, 1)
                | [] => (.error ("iam/jwks: key not found for kid \"" ++ kid ++ "\""), st1, 1)
              else
                (.error ("iam/jwks: key not found for kid \"" ++ kid ++ "\""), st1, 1)

/-- The signing algorithm a token header declares. -/
inductive SigAlg where
  | RS256 | RS384 | RS512
  | HS256 | HS384 | HS512
  | ES256 | ES384 | ES512
  | PS256 | PS384 | PS512
  deriving DecidableEq, Repr

/-- Whether the algorithm's method is `*jwt.SigningMethodRSA` (the type
assertion in the key function; the PS family is a distinct method type). -/
def SigAlg.isRSAMethod : SigAlg → Bool
  | .RS256 | .RS384 | .RS512 => true
  | _ => false

/-- Whether the algorithm is symmetric (HMAC family). -/
def SigAlg.isSymmetric : SigAlg → Bool
  | .HS256 | .HS384 | .HS512 => true
  | _ => false

/-- The header name of the algorithm (`token.Header["alg"]`). -/
def SigAlg.name : SigAlg → String
  | .RS256 => "RS256" | .RS384 => "RS384" | .RS512 => "RS512"
  | .HS256 => "HS256" | .HS384 => "HS384" | .HS512 => "HS512"
  | .ES256 => "ES256" | .ES384 => "ES384" | .ES512 => "ES512"
  | .PS256 => "PS256" | .PS384 => "PS384" | .PS512 => "PS512"

/-- A structurally well-formed JWT as the parser sees it after splitting:
the declared algorithm, the kid header (`""` when absent), the decoded
payload map, and the verdict of signature verification as a function of
the public key tried. -/
structure Token where
  alg : SigAlg
  kid : String
  payload : List (String × JsonValue)
  sigValid : RSAPub → Bool

/-- `Verifier.Verify`: parse with an expiry requirement.  The key function
rejects any non-`SigningMethodRSA` algorithm before touching key material,
then resolves the kid via `getKey`; the signature is verified with the
resolved key; the claims are validated (`exp` required and in the future,
`nbf` honoured when present) and mapped through `mapToIAMClaims`.
The `Nat` counts refresh (fetch) attempts made. -/
def Verify (st : VerifierSt) (now : Int) (f : FetchOutcome) (tok : Token) :
    Except String IAMClaims × VerifierSt × Nat :=
  if tok.alg.isRSAMethod = false then
    (.error ("iam/jwks: unexpected signing method: " ++ tok.alg.name), st, 0)
  else
    match getKey st now f tok.kid with
    | (.error e, st1, nf) => (.error ("iam/jwks: " ++ e), st1, nf)
    | (.ok key, st1, nf) =>
        if tok.sigValid key = false then
          (.error "iam/jwks: token signature is invalid", st1, nf)
        else
          match lookupField tok.payload "exp" with
          | some (.num expSec) =>
              if expSec ≤ now then
                (.error "iam/jwks: token is expired", st1, nf)
              else
                match lookupField tok.payload "nbf" with
                | some (.num nbfSec) =>
                    if now < nbfSec then
                      (.error "iam/jwks: token is not valid yet", st1, nf)
                    else (.ok (mapToIAMClaims tok.payload), st1, nf)
                | _ => (.ok (mapToIAMClaims tok.payload), st1, nf)
          | _ => (.error "iam/jwks: token is missing required claim: exp", st1, nf)

end Jwks

/-! ## Concrete instances used by the theorems below -/

/-- A signed payload carrying an `aud` claim, used to exhibit the dropped
field. -/
def c1Payload : List (String × JsonValue) :=
  [("sub", .str "alice"), ("exp", .num 2000000000), ("aud", .str "service-a")]

/-- A verifier whose snapshot holds a fresh key under `kid1`. -/
def c1Verifier : Jwks.VerifierSt := ⟨3600, [("kid1", ⟨1, 65537⟩)], 0⟩

/-- A well-signed RS256 token carrying `c1Payload`. -/
def c1Token : Jwks.Token := ⟨.RS256, "kid1", c1Payload, fun _ => true⟩

/-- A concrete payload with a non-standard field, for the round-trip
witness. -/
def c1WitnessPayload : List (String × JsonValue) :=
  [("sub", .str "alice"), ("exp", .num 2000000000), ("custom", .str "x")]

/-- A decision cache holding one entry, stored at time 0. -/
def c2Cache : Authz.DecisionCache :=
  fun k => if k = Authz.cacheKey "alice" "acme" "posts:read" then some ⟨true, 0⟩ else none

/-- Three sequential `Check` calls for the same context and permission at
times `t1`, `t2`, `t3`, each paired with the number of backend calls it
made. -/
def Authz.checkThrice (ttl : Int) (cache : Authz.DecisionCache) (b : Bool)
    (t1 t2 t3 : Int) (ctx : Authz.Ctx) (p : String) :
    (Except String Bool × Nat) × (Except String Bool × Nat) × (Except String Bool × Nat) :=
  let r1 := Authz.Check ttl cache (.ok b) t1 ctx p
  let r2 := Authz.Check ttl r1.2.1 (.ok b) t2 ctx p
  let r3 := Authz.Check ttl r2.2.1 (.ok b) t3 ctx p
  ((r1.1, r1.2.2), (r2.1, r2.2.2), (r3.1, r3.2.2))

/-- A token with a symmetric algorithm whose signature every key would
superficially verify. -/
def c3Token : Jwks.Token :=
  ⟨.HS256, "kid1", [("exp", .num 9999)], fun _ => true⟩

/-- A verifier whose snapshot holds a key for `kid1`, stale at time 100. -/
def c6St : Jwks.VerifierSt := ⟨10, [("kid1", ⟨5, 3⟩)], 0⟩

/-- A successful fetch whose document has rotated to `kid2` only. -/
def c6Fetch : Jwks.FetchOutcome :=
  .response 200 (.ok [⟨"RSA", "sig", "kid2", "RS256", "AQ", "AQAB"⟩])

/-! ## Helper lemmas -/


theorem lookupField_of_mem : ∀ {m : List (String × JsonValue)} {k : String} {v : JsonValue},
    (k, v) ∈ m → (m.map Prod.fst).Nodup → lookupField m k = some v := by
  intro m
  induction m with
  | nil => intro k v h _; cases h
  | cons hd tl ih =>
    intro k v hmem hnodup
    obtain ⟨a, b⟩ := hd
    simp only [List.map_cons, List.nodup_cons] at hnodup
    rcases List.mem_cons.mp hmem with heq | htl
    · cases heq
      simp [lookupField]
    · have hne : a ≠ k := by
        intro he
        subst he
        exact hnodup.1 (List.mem_map_of_mem Prod.fst htl)
      simpa [lookupField, hne] using ih htl hnodup.2

theorem lookupField_filter {k : String} {v : JsonValue} (f : String × JsonValue → Bool) :
    ∀ {m : List (String × JsonValue)}, lookupField m k = some v → f (k, v) = true →
    lookupField (m.filter f) k = some v := by
  intro m
  induction m with
  | nil => intro h _; simp [lookupField] at h
  | cons hd tl ih =>
    intro hlook hf
    obtain ⟨a, b⟩ := hd
    by_cases hak : a = k
    · subst hak
      simp [lookupField] at hlook
      subst hlook
      simp [List.filter_cons, hf, lookupField]
    · simp only [lookupField, if_neg hak] at hlook
      rw [List.filter_cons]
      by_cases hfa : f (a, b) = true
      · simpa [hfa, lookupField, hak] using ih hlook hf
      · simp only [Bool.not_eq_true] at hfa
        simpa [hfa] using ih hlook hf

theorem collectStrings_map_str : ∀ {xs : List JsonValue}, allStrings xs = true →
    (collectStrings xs).map JsonValue.str = xs := by
  intro xs
  induction xs with
  | nil => intro _; rfl
  | cons x rest ih =>
    intro h
    cases x <;> simp [allStrings] at h
    simp [collectStrings, ih h]

/-! ## C1: claim-mapping round-trip -/

/-- C1 counterexample: `c1Token` verifies successfully and its payload
carries `aud`, but the field is neither reflected in a typed field of the
returned `Claims` nor present in `Extra` — `mapToIAMClaims` drops it
(likewise `nbf` and `jti`). -/
theorem mapToIAMClaims_drops_audience :
    (Jwks.Verify c1Verifier 50 (.response 200 (.ok [])) c1Token).1
      = .ok (mapToIAMClaims c1Payload) ∧
    ("aud", JsonValue.str "service-a") ∈ c1Payload ∧
    ¬ fieldRecovered (mapToIAMClaims c1Payload) "aud" (.str "service-a") := by
  refine ⟨rfl, ?_, ?_⟩
  · simp [c1Payload]
  · intro h
    unfold fieldRecovered at h
    rcases h with ⟨h1, _⟩ | ⟨h1, _⟩ | ⟨h1, _⟩ | ⟨h1, _⟩ | ⟨h1, _⟩ | ⟨h1, _⟩ | ⟨h1, _⟩ | h1
    all_goals first
      | exact absurd h1 (by decide)
      | simp [c1Payload, mapToIAMClaims, lookupField, isStandardKey] at h1

/-- C1 (amended): every payload field whose key is not `aud`, `nbf` or
`jti`, and whose value has the shape the typed extraction expects for its
key, is recoverable from the `Claims` built by `mapToIAMClaims`: typed for
`sub`, `tenant_id`, `email`, `iss`, `exp`, `iat` and `roles`, in `Extra`
for every non-standard key.  (`aud`, `nbf` and `jti` are excluded from
`Extra` without receiving a typed field, so they are dropped.) -/
theorem mapToIAMClaims_roundtrip (m : List (String × JsonValue)) (k : String) (v : JsonValue)
    (hmem : (k, v) ∈ m) (hnodup : (m.map Prod.fst).Nodup)
    (haud : k ≠ "aud") (hnbf : k ≠ "nbf") (hjti : k ≠ "jti")
    (hshape : shapeOK k v = true) :
    fieldRecovered (mapToIAMClaims m) k v := by
  have hlook := lookupField_of_mem hmem hnodup
  unfold fieldRecovered
  by_cases h1 : k = "sub"
  · subst h1
    obtain ⟨s, rfl⟩ : ∃ s, v = JsonValue.str s := by
      cases v
      case str s => exact ⟨s, rfl⟩
      all_goals simp [shapeOK] at hshape
    exact Or.inl ⟨rfl, by simp [mapToIAMClaims, hlook]⟩
  by_cases h2 : k = "tenant_id"
  · subst h2
    obtain ⟨s, rfl⟩ : ∃ s, v = JsonValue.str s := by
      cases v
      case str s => exact ⟨s, rfl⟩
      all_goals simp [shapeOK] at hshape
    exact Or.inr (Or.inl ⟨rfl, by simp [mapToIAMClaims, hlook]⟩)
  by_cases h3 : k = "email"
  · subst h3
    obtain ⟨s, rfl⟩ : ∃ s, v = JsonValue.str s := by
      cases v
      case str s => exact ⟨s, rfl⟩
      all_goals simp [shapeOK] at hshape
    exact Or.inr (Or.inr (Or.inl ⟨rfl, by simp [mapToIAMClaims, hlook]⟩))
  by_cases h4 : k = "iss"
  · subst h4
    obtain ⟨s, rfl⟩ : ∃ s, v = JsonValue.str s := by
      cases v
      case str s => exact ⟨s, rfl⟩
      all_goals simp [shapeOK] at hshape
    exact Or.inr (Or.inr (Or.inr (Or.inl ⟨rfl, by simp [mapToIAMClaims, hlook]⟩)))
  by_cases h5 : k = "exp"
  · subst h5
    obtain ⟨n, rfl⟩ : ∃ n, v = JsonValue.num n := by
      cases v
      case num n => exact ⟨n, rfl⟩
      all_goals simp [shapeOK] at hshape
    exact Or.inr (Or.inr (Or.inr (Or.inr (Or.inl ⟨rfl, by simp [mapToIAMClaims, hlook]⟩))))
  by_cases h6 : k = "iat"
  · subst h6
    obtain ⟨n, rfl⟩ : ∃ n, v = JsonValue.num n := by
      cases v
      case num n => exact ⟨n, rfl⟩
      all_goals simp [shapeOK] at hshape
    exact Or.inr (Or.inr (Or.inr (Or.inr (Or.inr (Or.inl ⟨rfl, by simp [mapToIAMClaims, hlook]⟩)))))
  by_cases h7 : k = "roles"
  · subst h7
    obtain ⟨xs, rfl, hall⟩ : ∃ xs, v = JsonValue.arr xs ∧ allStrings xs = true := by
      cases v
      case arr xs => exact ⟨xs, rfl, by simpa [shapeOK] using hshape⟩
      all_goals simp [shapeOK] at hshape
    refine Or.inr (Or.inr (Or.inr (Or.inr (Or.inr (Or.inr (Or.inl ⟨rfl, ?_⟩))))))
    simp [mapToIAMClaims, hlook, collectStrings_map_str hall]
  · have hstd : isStandardKey k = false := by
      simp [isStandardKey, h1, h2, h3, h4, h5, h6, h7, haud, hnbf, hjti]
    have hx := lookupField_filter (fun p => !(isStandardKey p.1)) hlook (by simp [hstd])
    exact Or.inr (Or.inr (Or.inr (Or.inr (Or.inr (Or.inr (Or.inr
      (by simpa [mapToIAMClaims] using hx)))))))

/-- Witness: the amended round-trip theorem applied at a concrete payload
and field. -/
theorem mapToIAMClaims_roundtrip_witness :
    ("custom", JsonValue.str "x") ∈ c1WitnessPayload ∧
    fieldRecovered (mapToIAMClaims c1WitnessPayload) "custom" (.str "x") :=
  ⟨by simp [c1WitnessPayload],
   mapToIAMClaims_roundtrip c1WitnessPayload "custom" (.str "x")
     (by simp [c1WitnessPayload])
     (by simp [c1WitnessPayload])
     (by decide) (by decide) (by decide) (by decide)⟩

/-! ## C2: cache-miss backend failure -/

/-- C2 counterexample: with TTL 10, at time 20 the cached entry for the
queried key is expired; the backend fails, the error is propagated, but
the cache is not left unchanged — the expired entry has been removed. -/
theorem check_expired_entry_removed_on_backend_error :
    (Authz.Check 10 c2Cache (.error "backend down") 20 ⟨"alice", "acme"⟩ "posts:read").1
      = .error "iam/authz: backend down" ∧
    c2Cache (Authz.cacheKey "alice" "acme" "posts:read") = some ⟨true, 0⟩ ∧
    (Authz.Check 10 c2Cache (.error "backend down") 20 ⟨"alice", "acme"⟩ "posts:read").2.1
      (Authz.cacheKey "alice" "acme" "posts:read") = none :=
  ⟨rfl, rfl, rfl⟩

/-- C2 (amended): when the backend call made on a miss or after expiry
fails, `Check` propagates the wrapped error and adds or modifies no cache
entry; the only possible change is the removal of the already-expired
entry under the queried key, and on a true miss the cache is wholly
unchanged. -/
theorem check_backend_error_cache_effect (ttl : Int) (cache : Authz.DecisionCache)
    (e : String) (now : Int) (u tn p : String)
    (hu : ¬ u = "") (ht : ¬ tn = "")
    (hmiss : Authz.isFreshHit ttl cache now (Authz.cacheKey u tn p) = false) :
    (Authz.Check ttl cache (.error e) now ⟨u, tn⟩ p).1 = .error ("iam/authz: " ++ e) ∧
    (Authz.Check ttl cache (.error e) now ⟨u, tn⟩ p).2.2 = 1 ∧
    (∀ k, k ≠ Authz.cacheKey u tn p →
      (Authz.Check ttl cache (.error e) now ⟨u, tn⟩ p).2.1 k = cache k) ∧
    ((Authz.Check ttl cache (.error e) now ⟨u, tn⟩ p).2.1 (Authz.cacheKey u tn p)
        = cache (Authz.cacheKey u tn p) ∨
      (Authz.Check ttl cache (.error e) now ⟨u, tn⟩ p).2.1 (Authz.cacheKey u tn p) = none) ∧
    (cache (Authz.cacheKey u tn p) = none →
      (Authz.Check ttl cache (.error e) now ⟨u, tn⟩ p).2.1 = cache) := by
  have hc : ¬ (u = "" ∨ tn = "") := by
    rintro (h | h)
    · exact hu h
    · exact ht h
  have hchk : Authz.Check ttl cache (.error e) now ⟨u, tn⟩ p
      = Authz.checkCached ttl cache (.error e) now u tn p := by
    simp [Authz.Check, hc]
  rw [hchk]
  cases hck : cache (Authz.cacheKey u tn p) with
  | none =>
      refine ⟨?_, ?_, ?_, ?_, ?_⟩ <;>
        simp [Authz.checkCached, Authz.queryBackend, hck]
  | some entry =>
      have hstale : ¬ (now - entry.timestamp < ttl) := by
        simpa [Authz.isFreshHit, hck] using hmiss
      refine ⟨?_, ?_, ?_, ?_, ?_⟩
      · simp [Authz.checkCached, Authz.queryBackend, hck, hstale]
      · simp [Authz.checkCached, Authz.queryBackend, hck, hstale]
      · intro k hk
        simp [Authz.checkCached, Authz.queryBackend, hck, hstale, hk]
      · right
        simp [Authz.checkCached, Authz.queryBackend, hck, hstale]
      · intro h
        exact Option.noConfusion h

/-- Witness: the amended C2 theorem applied at an empty cache and a
failing backend. -/
theorem check_backend_error_cache_effect_witness :
    (¬ "alice" = "") ∧ (¬ "acme" = "") ∧
    Authz.isFreshHit 10 (fun _ => none) 0 (Authz.cacheKey "alice" "acme" "posts:read") = false ∧
    (Authz.Check 10 (fun _ => none) (.error "backend down") 0 ⟨"alice", "acme"⟩ "posts:read").1
      = .error ("iam/authz: " ++ "backend down") :=
  ⟨by decide, by decide, rfl,
   (check_backend_error_cache_effect 10 (fun _ => none) "backend down" 0
      "alice" "acme" "posts:read" (by decide) (by decide) rfl).1⟩

/-! ## C5: TTL-bounded backend call counts -/

/-- C5: against a fixed fault-free backend, a first `Check` issues exactly
one backend call, a second within the TTL issues none and returns the
cached boolean, and a third after TTL expiry issues exactly one more. -/
theorem check_ttl_backend_call_counts (ttl : Int) (cache : Authz.DecisionCache) (b : Bool)
    (t1 t2 t3 : Int) (u tn p : String)
    (hu : ¬ u = "") (ht : ¬ tn = "")
    (hmiss : cache (Authz.cacheKey u tn p) = none)
    (h2 : t2 - t1 < ttl) (h3 : ttl ≤ t3 - t1) :
    Authz.checkThrice ttl cache b t1 t2 t3 ⟨u, tn⟩ p
      = ((.ok b, 1), (.ok b, 0), (.ok b, 1)) := by
  have hc : ¬ (u = "" ∨ tn = "") := by
    rintro (h | h)
    · exact hu h
    · exact ht h
  have hstale : ¬ (t3 - t1 < ttl) := by omega
  have e1 : Authz.Check ttl cache (.ok b) t1 ⟨u, tn⟩ p
      = (.ok b, fun k => if k = Authz.cacheKey u tn p then some ⟨b, t1⟩ else cache k, 1) := by
    simp [Authz.Check, hc, Authz.checkCached, hmiss, Authz.queryBackend]
  have e2 : Authz.Check ttl
      (fun k => if k = Authz.cacheKey u tn p then some ⟨b, t1⟩ else cache k) (.ok b) t2 ⟨u, tn⟩ p
      = (.ok b, fun k => if k = Authz.cacheKey u tn p then some ⟨b, t1⟩ else cache k, 0) := by
    simp [Authz.Check, hc, Authz.checkCached, h2]
  unfold Authz.checkThrice
  simp only [e1, e2]
  simp [Authz.Check, hc, Authz.checkCached, Authz.queryBackend, hstale]

/-- Witness: the C5 theorem applied at TTL 10 with calls at times 0, 5
and 15. -/
theorem check_ttl_backend_call_counts_witness :
    (¬ "alice" = "") ∧ (¬ "acme" = "") ∧
    ((fun _ => none : Authz.DecisionCache) (Authz.cacheKey "alice" "acme" "posts:read") = none) ∧
    ((5 : Int) - 0 < 10) ∧ ((10 : Int) ≤ 15 - 0) ∧
    Authz.checkThrice 10 (fun _ => none) true 0 5 15 ⟨"alice", "acme"⟩ "posts:read"
      = ((.ok true, 1), (.ok true, 0), (.ok true, 1)) :=
  ⟨by decide, by decide, rfl, by decide, by decide,
   check_ttl_backend_call_counts 10 (fun _ => none) true 0 5 15 "alice" "acme" "posts:read"
     (by decide) (by decide) rfl (by decide) (by decide)⟩

/-! ## C9: CheckResource routes through Check -/

/-- C9: `CheckResource` returns exactly the result of `Check` on the
permission string `resource:action` — same value or error, same cache,
same backend-call count. -/
theorem checkResource_eq_check (ttl : Int) (cache : Authz.DecisionCache)
    (backend : Except String Bool) (now : Int) (ctx : Authz.Ctx)
    (resource action : String) :
    Authz.CheckResource ttl cache backend now ctx resource action
      = Authz.Check ttl cache backend now ctx (resource ++ ":" ++ action) := rfl

/-! ## C10: missing user or tenant id in the context -/

/-- C10: when the context lacks the user id or the tenant id, `Check`,
`CheckResource` and `GetPermissions` return the context error, make no
backend call, and leave the decision cache unchanged. -/
theorem missing_context_rejected_no_backend (ttl : Int) (cache : Authz.DecisionCache)
    (backend : Except String Bool) (pbackend : Except String (List String))
    (now : Int) (ctx : Authz.Ctx) (p resource action : String)
    (h : ctx.userID = "" ∨ ctx.tenantID = "") :
    Authz.Check ttl cache backend now ctx p
      = (.error "iam/authz: user_id and tenant_id required in context", cache, 0) ∧
    Authz.CheckResource ttl cache backend now ctx resource action
      = (.error "iam/authz: user_id and tenant_id required in context", cache, 0) ∧
    Authz.GetPermissions pbackend ctx
      = (.error "iam/authz: user_id and tenant_id required in context", 0) := by
  refine ⟨?_, ?_, ?_⟩
  · simp only [Authz.Check]
    rw [if_pos h]
  · simp only [Authz.CheckResource, Authz.Check]
    rw [if_pos h]
  · simp only [Authz.GetPermissions]
    rw [if_pos h]

/-- Witness: the C10 theorem applied at a context with no user id. -/
theorem missing_context_rejected_no_backend_witness :
    ((Authz.Ctx.mk "" "acme").userID = "" ∨ (Authz.Ctx.mk "" "acme").tenantID = "") ∧
    Authz.Check 10 (fun _ => none) (.ok true) 0 ⟨"", "acme"⟩ "posts:read"
      = (.error "iam/authz: user_id and tenant_id required in context", (fun _ => none), 0) :=
  ⟨Or.inl rfl,
   (missing_context_rejected_no_backend 10 (fun _ => none) (.ok true) (.ok [])
      0 ⟨"", "acme"⟩ "posts:read" "posts" "read" (Or.inl rfl)).1⟩

/-! ## C8: a failed exchange never evicts the cached token -/

/-- C8: whenever `GetCachedToken` takes the slow path and the credential
exchange fails, the wrapped error is returned and the exchanger state —
including any stored token — is exactly what it was before the call. -/
theorem getCachedToken_failed_exchange_keeps_token (st : OAuth2.ExchangerSt)
    (now : Int) (e : String)
    (h : OAuth2.needsExchange st now = true) :
    OAuth2.GetCachedToken st now (.error e)
      = (.error ("oauth2 token exchange failed: " ++ e), st) := by
  cases hst : st.token with
  | none => simp [OAuth2.GetCachedToken, hst, OAuth2.slowPath]
  | some tk =>
      have hbuf : ¬ (now < tk.expiresAt - st.refreshBuffer) := by
        simpa [OAuth2.needsExchange, hst] using h
      simp [OAuth2.GetCachedToken, hst, hbuf, OAuth2.slowPath]

/-- Witness: the C8 theorem applied at an empty token cache. -/
theorem getCachedToken_failed_exchange_keeps_token_witness :
    OAuth2.needsExchange ⟨300, none⟩ 0 = true ∧
    OAuth2.GetCachedToken ⟨300, none⟩ 0 (.error "issuer down")
      = (.error ("oauth2 token exchange failed: " ++ "issuer down"), ⟨300, none⟩) :=
  ⟨rfl, getCachedToken_failed_exchange_keeps_token ⟨300, none⟩ 0 "issuer down" rfl⟩

/-! ## C3: symmetric algorithms are rejected before key use -/

/-- C3: a token declaring a symmetric (HMAC) algorithm is rejected by the
key function's method check: `Verify` returns the signing-method error,
leaves the key cache untouched and performs no fetch, whatever keys are
cached and whatever the token's signature would verify against. -/
theorem verify_rejects_symmetric_alg (st : Jwks.VerifierSt) (now : Int)
    (f : Jwks.FetchOutcome) (tok : Jwks.Token)
    (h : tok.alg.isSymmetric = true) :
    Jwks.Verify st now f tok
      = (.error ("iam/jwks: unexpected signing method: " ++ tok.alg.name), st, 0) := by
  have hrsa : tok.alg.isRSAMethod = false := by
    cases halg : tok.alg <;> rw [halg] at h <;>
      first | rfl | simp [Jwks.SigAlg.isSymmetric] at h
  simp [Jwks.Verify, hrsa]

/-- Witness: the C3 theorem applied at a cache that holds a key under the
token's kid. -/
theorem verify_rejects_symmetric_alg_witness :
    c3Token.alg.isSymmetric = true ∧
    Jwks.Verify ⟨3600, [("kid1", ⟨1, 65537⟩)], 0⟩ 50 (.response 200 (.ok [])) c3Token
      = (.error ("iam/jwks: unexpected signing method: " ++ c3Token.alg.name),
         ⟨3600, [("kid1", ⟨1, 65537⟩)], 0⟩, 0) :=
  ⟨rfl, verify_rejects_symmetric_alg ⟨3600, [("kid1", ⟨1, 65537⟩)], 0⟩ 50
    (.response 200 (.ok [])) c3Token rfl⟩

/-! ## C7: a 200 response with zero usable keys never replaces the cache -/

/-- C7: if the fetch returns HTTP 200 but the document yields zero usable
signing keys after the skipping rules, `refresh` fails and the previous
snapshot and fetch timestamp are untouched. -/
theorem refresh_zero_usable_keys_error (st : Jwks.VerifierSt) (now : Int)
    (jwks : List Jwks.JwkKey)
    (h : Jwks.buildKeys jwks [] = []) :
    Jwks.refresh st now (.response 200 (.ok jwks))
      = (.error "iam/jwks: no valid RSA signing keys found", st) := by
  simp [Jwks.refresh, h]

/-- Witness: the C7 theorem applied at a document holding one non-RSA key
and one RSA key with undecodable material. -/
theorem refresh_zero_usable_keys_error_witness :
    Jwks.buildKeys
        [⟨"EC", "sig", "k1", "ES256", "AQ", "AQ"⟩,
         ⟨"RSA", "sig", "k2", "RS256", "!", "AQAB"⟩] [] = [] ∧
    Jwks.refresh ⟨3600, [("old", ⟨1, 65537⟩)], 5⟩ 99
        (.response 200 (.ok
          [⟨"EC", "sig", "k1", "ES256", "AQ", "AQ"⟩,
           ⟨"RSA", "sig", "k2", "RS256", "!", "AQAB"⟩]))
      = (.error "iam/jwks: no valid RSA signing keys found",
         ⟨3600, [("old", ⟨1, 65537⟩)], 5⟩) :=
  ⟨rfl, refresh_zero_usable_keys_error ⟨3600, [("old", ⟨1, 65537⟩)], 5⟩ 99 _ rfl⟩

/-! ## C6: stale-key fallback and resolution failure -/

/-- C6 counterexample: the cache holds a (stale) key for `kid1`, yet
`getKey` fails — the inline refresh succeeded and replaced the snapshot
with a set lacking `kid1`, so a stale key existing at entry does not
prevent failure. -/
theorem getKey_error_despite_stale_key :
    Jwks.lookupKey c6St.keys "kid1" = some ⟨5, 3⟩ ∧
    (10 : Int) < 100 - c6St.lastFetch ∧
    (Jwks.getKey c6St 100 c6Fetch "kid1").1
      = .error "iam/jwks: key not found for kid \"kid1\"" :=
  ⟨rfl, by decide, rfl⟩

/-- C6 (amended): if the inline refresh fails and the cache holds a key
for the requested kid, `getKey` returns that stale key and no error; and
`getKey` fails only when either the refresh failed with no cached key for
the kid, or the refresh succeeded and the replacing snapshot has no key
for the kid (a stale key present at entry is discarded by a successful
refresh). -/
theorem getKey_stale_fallback_error_cond (st : Jwks.VerifierSt) (now : Int)
    (f : Jwks.FetchOutcome) (kid : String) :
    (∀ k, Jwks.lookupKey st.keys kid = some k →
      (∃ e0, (Jwks.refresh st now f).1 = .error e0) →
      (Jwks.getKey st now f kid).1 = .ok k) ∧
    (∀ e, (Jwks.getKey st now f kid).1 = .error e →
      (Jwks.lookupKey st.keys kid = none ∧ (Jwks.refresh st now f).1 = .error e) ∨
      ((Jwks.refresh st now f).1 = .ok () ∧
        Jwks.lookupKey (Jwks.refresh st now f).2.keys kid = none)) := by
  rcases hre : Jwks.refresh st now f with ⟨res, st1⟩
  constructor
  · rintro k hk ⟨e0, he⟩
    simp at he
    subst he
    cases hs : decide (st.refreshInterval < now - st.lastFetch) with
    | false => simp [Jwks.getKey, hk, hs]
    | true => simp [Jwks.getKey, hk, hs, hre]
  · intro e herr
    cases hk : Jwks.lookupKey st.keys kid with
    | some k =>
        cases hs : decide (st.refreshInterval < now - st.lastFetch) with
        | false => simp [Jwks.getKey, hk, hs] at herr
        | true =>
            cases res with
            | error e0 => simp [Jwks.getKey, hk, hs, hre] at herr
            | ok u =>
                cases u
                cases hk1 : Jwks.lookupKey st1.keys kid with
                | some k1 => simp [Jwks.getKey, hk, hs, hre, hk1] at herr
                | none =>
                    right
                    exact ⟨by simp [hre], by simp [hre, hk1]⟩
    | none =>
        cases hs : decide (st.refreshInterval < now - st.lastFetch) with
        | false =>
            cases res with
            | error e0 =>
                left
                have he : e0 = e := by
                  simpa [Jwks.getKey, hk, hs, hre] using herr
                subst he
                exact ⟨rfl, by simp [hre]⟩
            | ok u =>
                cases u
                cases hk1 : Jwks.lookupKey st1.keys kid with
                | some k1 => simp [Jwks.getKey, hk, hs, hre, hk1] at herr
                | none =>
                    right
                    exact ⟨by simp [hre], by simp [hre, hk1]⟩
        | true =>
            cases res with
            | error e0 =>
                left
                have he : e0 = e := by
                  simpa [Jwks.getKey, hk, hs, hre] using herr
                subst he
                exact ⟨rfl, by simp [hre]⟩
            | ok u =>
                cases u
                cases hk1 : Jwks.lookupKey st1.keys kid with
                | some k1 => simp [Jwks.getKey, hk, hs, hre, hk1] at herr
                | none =>
                    right
                    exact ⟨by simp [hre], by simp [hre, hk1]⟩

/-- Witness: the C6 amended theorem's stale-fallback clause applied at a
stale cache and a transport-failing fetch. -/
theorem getKey_stale_fallback_error_cond_witness :
    Jwks.lookupKey c6St.keys "kid1" = some ⟨5, 3⟩ ∧
    (∃ e0, (Jwks.refresh c6St 100 (.transportError "down")).1 = .error e0) ∧
    (Jwks.getKey c6St 100 (.transportError "down") "kid1").1 = .ok ⟨5, 3⟩ :=
  ⟨rfl, ⟨"iam/jwks: fetch: down", rfl⟩,
   (getKey_stale_fallback_error_cond c6St 100 (.transportError "down") "kid1").1
     ⟨5, 3⟩ rfl ⟨"iam/jwks: fetch: down", rfl⟩⟩

end IamGo
